import Mathlib

/-!
# gbhv architecture layer (`src/gbhv/arch.c`)

A shallow embedding of the functions of `arch.c` and proofs about them.

The processor is a `Machine` (register file, MSRs, CPUID results).  Each compiler
intrinsic or assembly helper the source calls is a function on a `World`: the machine
together with the list of hardware accesses issued so far.  The C functions are
transcribed statement by statement with explicit state passing.  Machine integers are
natural numbers reduced modulo `2 ^ width` wherever the C code stores or converts them.
-/

namespace Gbhv

/-! ## Hardware model -/

/-- One hardware access, as issued by an intrinsic or an assembly helper. -/
inductive HwAccess where
  | readcr0
  | readcr3
  | readcr4
  | writecr4 (value : Nat)
  | sgdt
  | sidt
  | str
  | sldt
  | readdr (index : Nat)
  | readeflags
  | readmsr (address : Nat)
  | cpuidex (function : Int) (subFunction : Int)
  deriving DecidableEq, Repr

/-- The state of one logical processor.  `cr4Latch current written` is the value CR4
holds after `mov cr4, written` when it held `current`; `cpuid leaf subleaf r` is the
32-bit value the CPUID instruction leaves in output register `r` (0 = EAX, 1 = EBX,
2 = ECX, 3 = EDX). -/
structure Machine where
  cr0 : Nat
  cr3 : Nat
  cr4 : Nat
  cr4Latch : Nat → Nat → Nat
  gdtrLimit : Nat
  gdtrBase : Nat
  idtrLimit : Nat
  idtrBase : Nat
  tr : Nat
  ldtr : Nat
  dr : Nat → Nat
  rflags : Nat
  msr : Nat → Nat
  cpuid : Int → Int → Nat → Nat

/-- The machine together with the trace of hardware accesses issued so far. -/
structure World where
  machine : Machine
  trace : List HwAccess

/-- Append one access to the trace. -/
def World.log (w : World) (a : HwAccess) : World :=
  { w with trace := w.trace ++ [a] }

/-- Hardware that stores into CR4 exactly what is written to it. -/
def Machine.RetainsCr4Writes (m : Machine) : Prop :=
  ∀ current written, m.cr4Latch current written = written

/-- Every register holds a value of its architectural width. -/
structure Machine.WellFormed (m : Machine) : Prop where
  cr0 : m.cr0 < 2 ^ 64
  cr3 : m.cr3 < 2 ^ 64
  cr4 : m.cr4 < 2 ^ 64
  gdtrLimit : m.gdtrLimit < 2 ^ 16
  gdtrBase : m.gdtrBase < 2 ^ 64
  idtrLimit : m.idtrLimit < 2 ^ 16
  idtrBase : m.idtrBase < 2 ^ 64
  tr : m.tr < 2 ^ 16
  ldtr : m.ldtr < 2 ^ 16
  dr : ∀ n, m.dr n < 2 ^ 64
  rflags : m.rflags < 2 ^ 64
  msr : ∀ a, m.msr a < 2 ^ 64
  cpuid : ∀ f s r, m.cpuid f s r < 2 ^ 32

/-! ## Intrinsics (`intrin.h`) -/

/-- Intrinsic `__readcr0`: the 64-bit value of CR0. -/
def __readcr0 (w : World) : Nat × World :=
  (w.machine.cr0 % 2 ^ 64, w.log .readcr0)

/-- Intrinsic `__readcr3`: the 64-bit value of CR3. -/
def __readcr3 (w : World) : Nat × World :=
  (w.machine.cr3 % 2 ^ 64, w.log .readcr3)

/-- Intrinsic `__readcr4`: the 64-bit value of CR4. -/
def __readcr4 (w : World) : Nat × World :=
  (w.machine.cr4 % 2 ^ 64, w.log .readcr4)

/-- Intrinsic `__writecr4`: the hardware latches the 64-bit operand into CR4. -/
def __writecr4 (Data : Nat) (w : World) : World :=
  { machine := { w.machine with cr4 := w.machine.cr4Latch w.machine.cr4 (Data % 2 ^ 64) },
    trace := w.trace ++ [.writecr4 (Data % 2 ^ 64)] }

/-- Intrinsic `__readdr`: the 64-bit value of the selected debug register. -/
def __readdr (DebugRegister : Nat) (w : World) : Nat × World :=
  (w.machine.dr DebugRegister % 2 ^ 64, w.log (.readdr DebugRegister))

/-- Intrinsic `__readeflags`: the 64-bit value of the flags register. -/
def __readeflags (w : World) : Nat × World :=
  (w.machine.rflags % 2 ^ 64, w.log .readeflags)

/-- Intrinsic `__readmsr`: the 64-bit value of the MSR at the given address. -/
def __readmsr (Register : Nat) (w : World) : Nat × World :=
  (w.machine.msr Register % 2 ^ 64, w.log (.readmsr Register))

/-- Reinterpretation of a 32-bit pattern as an `INT32`. -/
def toINT32 (n : Nat) : Int :=
  if n % 2 ^ 32 < 2 ^ 31 then ((n % 2 ^ 32 : Nat) : Int) else ((n % 2 ^ 32 : Nat) : Int) - 2 ^ 32

/-- The C conversion `(UINT32)` of an integer. -/
def toUINT32 (i : Int) : Nat :=
  (i % 2 ^ 32).toNat

/-- Intrinsic `__cpuidex`: fills `INT32 CPUInfo[4]` with EAX, EBX, ECX, EDX. -/
def __cpuidex (FunctionId SubFunctionId : Int) (w : World) : List Int × World :=
  ([0, 1, 2, 3].map (fun r => toINT32 (w.machine.cpuid FunctionId SubFunctionId r)),
    w.log (.cpuidex FunctionId SubFunctionId))

/-! ## Register unions (`ia32.h`) -/

/-- A register union of `ia32.h`: a raw `Flags` integer overlaid with named bitfields. -/
structure RegisterUnion where
  Flags : Nat
  deriving DecidableEq, Repr

/-- Read of a bitfield of `width` bits at bit `pos` of a 64-bit `Flags`. -/
def bitfieldRead (Flags pos width : Nat) : Nat :=
  (Flags >>> pos) % 2 ^ width

/-- Store into a bitfield of `width` bits at bit `pos` of a 64-bit `Flags`: the field is
masked out and the new value, truncated to the field, is or-ed in. -/
def bitfieldWrite (Flags pos width value : Nat) : Nat :=
  (Flags &&& ((2 ^ 64 - 1) ^^^ (((2 ^ width - 1) <<< pos) % 2 ^ 64))) |||
    (((value % 2 ^ width) <<< pos) % 2 ^ 64)

abbrev CR0 := RegisterUnion
abbrev CR3 := RegisterUnion
abbrev CR4 := RegisterUnion

/-- Modelled from the spec: the `CR4` union of `ia32.h` is absent from the sources; its
`VmxEnable` bitfield is the single bit 13 of CR4, the "Virtual Machine Extensions Enable"
bit named in the comments of `ArchEnableVmxe` and `ArchDisableVmxe`. -/
def CR4_VMX_ENABLE_BIT : Nat := 13

/-- The assignment `Register.VmxEnable = value`. -/
def CR4.setVmxEnable (Register : CR4) (value : Nat) : CR4 :=
  { Register with Flags := bitfieldWrite Register.Flags CR4_VMX_ENABLE_BIT 1 value }

/-! ## `arch.c` -/

/-- Source function `ArchGetHostMSR`; the parameter is a 32-bit `ULONG`. -/
def ArchGetHostMSR (MsrAddress : Nat) (w : World) : Nat × World :=
  __readmsr (MsrAddress % 2 ^ 32) w

/-- Source function `ArchEnableVmxe` (returns `VOID`): the result is the world after the
call.  The value read back into the local `Register` is not used by any later
statement. -/
def ArchEnableVmxe (w : World) : World :=
  let Register : CR4 := ⟨0⟩
  -- Get CR4
  let r := __readcr4 w
  let Register : CR4 := { Register with Flags := r.1 }
  -- Enable the bit
  let Register := Register.setVmxEnable 1
  -- Write it back to cr4
  let w := __writecr4 Register.Flags r.2
  -- Read back to verify
  let r := __readcr4 w
  let _Register : CR4 := { Register with Flags := r.1 }
  r.2

/-- Source function `ArchDisableVmxe` (returns `VOID`): the result is the world after the
call. -/
def ArchDisableVmxe (w : World) : World :=
  let Register : CR4 := ⟨0⟩
  -- Get CR4
  let r := __readcr4 w
  let Register : CR4 := { Register with Flags := r.1 }
  let Register := Register.setVmxEnable 0
  -- Write it back to cr4
  __writecr4 Register.Flags r.2


/-! ### Capability probe -/

/-- Source function `ArchGetCPUID`.  `CPUInfo[CPUIDRegister]` is defined only for an index
inside the four-element array; outside it the result is `none`. -/
def ArchGetCPUID (FunctionId SubFunctionId CPUIDRegister : Int) (w : World) :
    Option Nat × World :=
  let r := __cpuidex FunctionId SubFunctionId w
  let CPUInfo := r.1
  (if 0 ≤ CPUIDRegister then (CPUInfo[CPUIDRegister.toNat]?).map toUINT32 else none, r.2)

/-- Modelled from the spec: the helper `HvUtilBitIsSet` of `util.h` is absent from the
sources; it "returns whether the specified bit is set" in its first argument, computed
by shifting the bit down and masking it.  A negative position names no bit. -/
def HvUtilBitIsSet (BitField : Nat) (BitPosition : Int) : Bool :=
  decide (0 ≤ BitPosition) && ((BitField >>> BitPosition.toNat) &&& 1 != 0)

/-- Source function `ArchIsCPUFeaturePresent`. -/
def ArchIsCPUFeaturePresent (FunctionId SubFunctionId CPUIDRegister FeatureBit : Int)
    (w : World) : Option Bool × World :=
  let r := ArchGetCPUID FunctionId SubFunctionId CPUIDRegister w
  let Register := r.1
  (Register.map (fun Register => HvUtilBitIsSet Register FeatureBit), r.2)

/-- Modelled from the spec: the constants of `arch.h` are absent from the sources; the
virtualization-extension feature bit "defined by the target architecture" is
CPUID leaf 1. -/
def CPUID_VMX_ENABLED_FUNCTION : Int := 1

/-- Modelled from the spec: absent constant of `arch.h`; sub-leaf 0 of the feature
leaf. -/
def CPUID_VMX_ENABLED_SUBFUNCTION : Int := 0

/-- Modelled from the spec: absent constant of `arch.h`; ECX is the third element of the
array filled by `__cpuidex`. -/
def CPUID_REGISTER_ECX : Int := 2

/-- Modelled from the spec: absent constant of `arch.h`; the VMX feature flag is bit 5
of ECX. -/
def CPUID_VMX_ENABLED_BIT : Int := 5

/-- Source function `ArchIsVMXAvailable`. -/
def ArchIsVMXAvailable (w : World) : Option Bool × World :=
  ArchIsCPUFeaturePresent CPUID_VMX_ENABLED_FUNCTION CPUID_VMX_ENABLED_SUBFUNCTION
    CPUID_REGISTER_ECX CPUID_VMX_ENABLED_BIT w

/-- Modelled from the spec: absent constant of `ia32.h`; the architectural address of
the basic VMX capability MSR. -/
def IA32_VMX_BASIC : Nat := 0x480

abbrev IA32_VMX_BASIC_REGISTER := RegisterUnion

/-- Source function `ArchGetBasicVmxCapabilities`. -/
def ArchGetBasicVmxCapabilities (w : World) : IA32_VMX_BASIC_REGISTER × World :=
  let Register : IA32_VMX_BASIC_REGISTER := ⟨0⟩
  let r := ArchGetHostMSR IA32_VMX_BASIC w
  let Register : IA32_VMX_BASIC_REGISTER := { Register with Flags := r.1 }
  (Register, r.2)

/-! ### Decoded view of `IA32_VMX_BASIC_REGISTER` -/

/-- Modelled from the spec: the `IA32_VMX_BASIC_REGISTER` union of `ia32.h` is absent from
the sources.  Its named sub-fields are those listed in `ArchGetBasicVmxCapabilities`, in
declaration order; this record holds them as separate values. -/
structure VmxBasicFields where
  VmcsRevisionId : Nat
  MustBeZero : Nat
  VmcsSizeInBytes : Nat
  Reserved1 : Nat
  VmcsPhysicalAddressWidth : Nat
  DualMonitorSupport : Nat
  MemoryType : Nat
  InsOutsReporting : Nat
  VmxControls : Nat
  Reserved2 : Nat
  deriving DecidableEq, Repr

/-- Modelled from the spec: reading every named sub-field of the absent union, each at
the architecture's documented bit position (bits 30:0, 31, 44:32, 47:45, 48, 49, 53:50,
54, 55, 63:56). -/
def IA32_VMX_BASIC_REGISTER.decode (Register : IA32_VMX_BASIC_REGISTER) : VmxBasicFields :=
  { VmcsRevisionId := bitfieldRead Register.Flags 0 31
    MustBeZero := bitfieldRead Register.Flags 31 1
    VmcsSizeInBytes := bitfieldRead Register.Flags 32 13
    Reserved1 := bitfieldRead Register.Flags 45 3
    VmcsPhysicalAddressWidth := bitfieldRead Register.Flags 48 1
    DualMonitorSupport := bitfieldRead Register.Flags 49 1
    MemoryType := bitfieldRead Register.Flags 50 4
    InsOutsReporting := bitfieldRead Register.Flags 54 1
    VmxControls := bitfieldRead Register.Flags 55 1
    Reserved2 := bitfieldRead Register.Flags 56 8 }

/-- Modelled from the spec: storing every named sub-field of the absent union, in
declaration order, into a zeroed union. -/
def IA32_VMX_BASIC_REGISTER.encode (f : VmxBasicFields) : IA32_VMX_BASIC_REGISTER :=
  let Flags := 0
  let Flags := bitfieldWrite Flags 0 31 f.VmcsRevisionId
  let Flags := bitfieldWrite Flags 31 1 f.MustBeZero
  let Flags := bitfieldWrite Flags 32 13 f.VmcsSizeInBytes
  let Flags := bitfieldWrite Flags 45 3 f.Reserved1
  let Flags := bitfieldWrite Flags 48 1 f.VmcsPhysicalAddressWidth
  let Flags := bitfieldWrite Flags 49 1 f.DualMonitorSupport
  let Flags := bitfieldWrite Flags 50 4 f.MemoryType
  let Flags := bitfieldWrite Flags 54 1 f.InsOutsReporting
  let Flags := bitfieldWrite Flags 55 1 f.VmxControls
  let Flags := bitfieldWrite Flags 56 8 f.Reserved2
  ⟨Flags⟩

/-- Every sub-field value fits the width of its bitfield. -/
def VmxBasicFields.InRange (f : VmxBasicFields) : Prop :=
  f.VmcsRevisionId < 2 ^ 31 ∧ f.MustBeZero < 2 ^ 1 ∧ f.VmcsSizeInBytes < 2 ^ 13 ∧
  f.Reserved1 < 2 ^ 3 ∧ f.VmcsPhysicalAddressWidth < 2 ^ 1 ∧ f.DualMonitorSupport < 2 ^ 1 ∧
  f.MemoryType < 2 ^ 4 ∧ f.InsOutsReporting < 2 ^ 1 ∧ f.VmxControls < 2 ^ 1 ∧
  f.Reserved2 < 2 ^ 8

instance (f : VmxBasicFields) : Decidable f.InRange := by
  unfold VmxBasicFields.InRange
  infer_instance

/-! ### Processor state capture -/

/-- The packed pair stored by `sgdt` / `sidt`. -/
structure SEGMENT_DESCRIPTOR_REGISTER_64 where
  Limit : Nat
  BaseAddress : Nat
  deriving DecidableEq, Repr

abbrev SEGMENT_SELECTOR := RegisterUnion
abbrev DR7 := RegisterUnion
abbrev EFLAGS := RegisterUnion
abbrev IA32_DEBUGCTL_REGISTER := RegisterUnion
abbrev IA32_SYSENTER_CS_REGISTER := RegisterUnion
abbrev IA32_PAT_REGISTER := RegisterUnion
abbrev IA32_EFER_REGISTER := RegisterUnion

/-- Modelled from the spec: the record `IA32_SPECIAL_REGISTERS` of `arch.h` is absent from
the sources; its fields are the ones `ArchCaptureSpecialRegisters` assigns, which are
the members of the spec's ProcessorSnapshot. -/
structure IA32_SPECIAL_REGISTERS where
  ControlRegister0 : CR0
  ControlRegister3 : CR3
  ControlRegister4 : CR4
  GlobalDescriptorTableRegister : SEGMENT_DESCRIPTOR_REGISTER_64
  InterruptDescriptorTableRegister : SEGMENT_DESCRIPTOR_REGISTER_64
  TaskRegister : SEGMENT_SELECTOR
  LocalDescriptorTableRegister : SEGMENT_SELECTOR
  DebugRegister7 : DR7
  RflagsRegister : EFLAGS
  DebugControlMsr : IA32_DEBUGCTL_REGISTER
  SysenterCsMsr : IA32_SYSENTER_CS_REGISTER
  SysenterEspMsr : Nat
  SysenterEipMsr : Nat
  GlobalPerfControlMsr : Nat
  PatMsr : IA32_PAT_REGISTER
  EferMsr : IA32_EFER_REGISTER
  SmramBaseMsr : Nat
  deriving DecidableEq, Repr

/-- Intrinsic `_sgdt`: stores the GDTR limit and base as one pair. -/
def _sgdt (w : World) : SEGMENT_DESCRIPTOR_REGISTER_64 × World :=
  (⟨w.machine.gdtrLimit % 2 ^ 16, w.machine.gdtrBase % 2 ^ 64⟩, w.log .sgdt)

/-- Intrinsic `__sidt`: stores the IDTR limit and base as one pair. -/
def __sidt (w : World) : SEGMENT_DESCRIPTOR_REGISTER_64 × World :=
  (⟨w.machine.idtrLimit % 2 ^ 16, w.machine.idtrBase % 2 ^ 64⟩, w.log .sidt)

/-- Modelled from the spec: the assembly helper `ArchReadTaskRegister` is absent from the
sources; it reads the 16-bit task-register selector. -/
def ArchReadTaskRegister (w : World) : SEGMENT_SELECTOR × World :=
  (⟨w.machine.tr % 2 ^ 16⟩, w.log .str)

/-- Modelled from the spec: the assembly helper `ArchReadLocalDescriptorTableRegister` is
absent from the sources; it reads the 16-bit local-descriptor-table selector. -/
def ArchReadLocalDescriptorTableRegister (w : World) : SEGMENT_SELECTOR × World :=
  (⟨w.machine.ldtr % 2 ^ 16⟩, w.log .sldt)

/-- Modelled from the spec: absent constant of `ia32.h` (architectural MSR address). -/
def IA32_DEBUGCTL : Nat := 0x1D9
/-- Modelled from the spec: absent constant of `ia32.h` (architectural MSR address). -/
def IA32_SYSENTER_CS : Nat := 0x174
/-- Modelled from the spec: absent constant of `ia32.h` (architectural MSR address). -/
def IA32_SYSENTER_ESP : Nat := 0x175
/-- Modelled from the spec: absent constant of `ia32.h` (architectural MSR address). -/
def IA32_SYSENTER_EIP : Nat := 0x176
/-- Modelled from the spec: absent constant of `ia32.h` (architectural MSR address). -/
def IA32_PERF_GLOBAL_CTRL : Nat := 0x38F
/-- Modelled from the spec: absent constant of `ia32.h` (architectural MSR address). -/
def IA32_PAT : Nat := 0x277
/-- Modelled from the spec: absent constant of `ia32.h` (architectural MSR address). -/
def IA32_EFER : Nat := 0xC0000080
/-- Modelled from the spec: absent constant of `ia32.h` (architectural MSR address). -/
def IA32_SMBASE : Nat := 0x9E

/-- Source function `ArchCaptureSpecialRegisters`.  `Registers` is the caller's record as
it stands before the call; the result is the record after the call and the world after
the call. -/
def ArchCaptureSpecialRegisters (Registers : IA32_SPECIAL_REGISTERS) (w : World) :
    IA32_SPECIAL_REGISTERS × World :=
  -- Control registers
  let r := __readcr0 w
  let Registers := { Registers with ControlRegister0.Flags := r.1 }
  let r := __readcr3 r.2
  let Registers := { Registers with ControlRegister3.Flags := r.1 }
  let r := __readcr4 r.2
  let Registers := { Registers with ControlRegister4.Flags := r.1 }
  -- Global Descriptor Table and Interrupt Descriptor Table
  let d := _sgdt r.2
  let Registers := { Registers with GlobalDescriptorTableRegister := d.1 }
  let d := __sidt d.2
  let Registers := { Registers with InterruptDescriptorTableRegister := d.1 }
  -- Task register
  let t := ArchReadTaskRegister d.2
  let Registers := { Registers with TaskRegister := t.1 }
  -- LDT selector
  let t := ArchReadLocalDescriptorTableRegister t.2
  let Registers := { Registers with LocalDescriptorTableRegister := t.1 }
  -- Debug register DR7
  let r := __readdr 7 t.2
  let Registers := { Registers with DebugRegister7.Flags := r.1 }
  -- EFLAGS (RFLAGS) register
  let r := __readeflags r.2
  let Registers := { Registers with RflagsRegister.Flags := r.1 % 2 ^ 32 }
  -- Required MSRs that will be loaded to the guest
  let r := __readmsr IA32_DEBUGCTL r.2
  let Registers := { Registers with DebugControlMsr.Flags := r.1 }
  let r := __readmsr IA32_SYSENTER_CS r.2
  let Registers := { Registers with SysenterCsMsr.Flags := r.1 }
  let r := __readmsr IA32_SYSENTER_ESP r.2
  let Registers := { Registers with SysenterEspMsr := r.1 }
  let r := __readmsr IA32_SYSENTER_EIP r.2
  let Registers := { Registers with SysenterEipMsr := r.1 }
  let r := __readmsr IA32_PERF_GLOBAL_CTRL r.2
  let Registers := { Registers with GlobalPerfControlMsr := r.1 }
  let r := __readmsr IA32_PAT r.2
  let Registers := { Registers with PatMsr.Flags := r.1 }
  let r := __readmsr IA32_EFER r.2
  let Registers := { Registers with EferMsr.Flags := r.1 }
  -- SMRAM base address
  let r := __readmsr IA32_SMBASE r.2
  let Registers := { Registers with SmramBaseMsr := r.1 }
  (Registers, r.2)

/-! ## Concrete machines and records used to exercise the theorems -/

/-- A machine whose registers all hold distinct full-width sentinel values and whose CR4
retains what is written to it. -/
def sentinelMachine : Machine :=
  { cr0 := 0xC0C0C0C0C0C0C0C0
    cr3 := 0xC3C3C3C3C3C3C3C3
    cr4 := 0xC4C4C4C4C4C4C4C4
    cr4Latch := fun _ written => written
    gdtrLimit := 0x6D17
    gdtrBase := 0x6DBA6DBA6DBA6DBA
    idtrLimit := 0x1D17
    idtrBase := 0x1DBA1DBA1DBA1DBA
    tr := 0x7A5C
    ldtr := 0x1D7A
    dr := fun n => (0xD000000000000000 + n) % 2 ^ 64
    rflags := 0xF1A6F1A6F1A6F1A6
    msr := fun a => (0xA000000000000000 + a) % 2 ^ 64
    cpuid := fun _ _ r => (0xFFFFFF00 + r) % 2 ^ 32 }

/-- The sentinel machine with an empty trace. -/
def sentinelWorld : World := ⟨sentinelMachine, []⟩

/-- The sentinel machine with the VmxEnable bit of CR4 already set. -/
def vmxOnWorld : World :=
  ⟨{ sentinelMachine with cr4 := 0xC4C4C4C4C4C4E4C4 }, []⟩

/-- The sentinel machine on hardware that ignores writes to CR4, with CR4 zero. -/
def droppingWorld : World :=
  ⟨{ sentinelMachine with cr4 := 0, cr4Latch := fun current _ => current }, []⟩

/-- The sentinel machine with CR4 zero, on hardware that retains writes to CR4. -/
def retainingWorld : World :=
  ⟨{ sentinelMachine with cr4 := 0 }, []⟩

/-- A machine that agrees with the sentinel machine on bit 8 of EBX and differs from it
in other bits of EBX and in the other CPUID registers. -/
def otherCpuidWorld : World :=
  ⟨{ sentinelMachine with cpuid := fun _ _ r => if r = 1 then 0x00000100 else 0 }, []⟩

/-- The record `ArchCaptureSpecialRegisters` fills on machine `m`. -/
def capturedRecord (m : Machine) : IA32_SPECIAL_REGISTERS :=
  { ControlRegister0 := ⟨m.cr0 % 2 ^ 64⟩
    ControlRegister3 := ⟨m.cr3 % 2 ^ 64⟩
    ControlRegister4 := ⟨m.cr4 % 2 ^ 64⟩
    GlobalDescriptorTableRegister := ⟨m.gdtrLimit % 2 ^ 16, m.gdtrBase % 2 ^ 64⟩
    InterruptDescriptorTableRegister := ⟨m.idtrLimit % 2 ^ 16, m.idtrBase % 2 ^ 64⟩
    TaskRegister := ⟨m.tr % 2 ^ 16⟩
    LocalDescriptorTableRegister := ⟨m.ldtr % 2 ^ 16⟩
    DebugRegister7 := ⟨m.dr 7 % 2 ^ 64⟩
    RflagsRegister := ⟨m.rflags % 2 ^ 64 % 2 ^ 32⟩
    DebugControlMsr := ⟨m.msr IA32_DEBUGCTL % 2 ^ 64⟩
    SysenterCsMsr := ⟨m.msr IA32_SYSENTER_CS % 2 ^ 64⟩
    SysenterEspMsr := m.msr IA32_SYSENTER_ESP % 2 ^ 64
    SysenterEipMsr := m.msr IA32_SYSENTER_EIP % 2 ^ 64
    GlobalPerfControlMsr := m.msr IA32_PERF_GLOBAL_CTRL % 2 ^ 64
    PatMsr := ⟨m.msr IA32_PAT % 2 ^ 64⟩
    EferMsr := ⟨m.msr IA32_EFER % 2 ^ 64⟩
    SmramBaseMsr := m.msr IA32_SMBASE % 2 ^ 64 }

/-- The hardware accesses one call of `ArchCaptureSpecialRegisters` issues, in order. -/
def captureAccesses : List HwAccess :=
  [.readcr0, .readcr3, .readcr4, .sgdt, .sidt, .str, .sldt, .readdr 7, .readeflags,
   .readmsr IA32_DEBUGCTL, .readmsr IA32_SYSENTER_CS, .readmsr IA32_SYSENTER_ESP,
   .readmsr IA32_SYSENTER_EIP, .readmsr IA32_PERF_GLOBAL_CTRL, .readmsr IA32_PAT,
   .readmsr IA32_EFER, .readmsr IA32_SMBASE]

/-- Whether an access is an MSR read. -/
def HwAccess.isMsrRead : HwAccess → Bool
  | .readmsr _ => true
  | _ => false

/-- A caller's record before its first capture: every field zero. -/
def zeroRegisters : IA32_SPECIAL_REGISTERS :=
  { ControlRegister0 := ⟨0⟩, ControlRegister3 := ⟨0⟩, ControlRegister4 := ⟨0⟩
    GlobalDescriptorTableRegister := ⟨0, 0⟩, InterruptDescriptorTableRegister := ⟨0, 0⟩
    TaskRegister := ⟨0⟩, LocalDescriptorTableRegister := ⟨0⟩, DebugRegister7 := ⟨0⟩
    RflagsRegister := ⟨0⟩, DebugControlMsr := ⟨0⟩, SysenterCsMsr := ⟨0⟩
    SysenterEspMsr := 0, SysenterEipMsr := 0, GlobalPerfControlMsr := 0
    PatMsr := ⟨0⟩, EferMsr := ⟨0⟩, SmramBaseMsr := 0 }

/-- The sentinel machine with bits 32..63 of the flags register cleared. -/
def lowFlagsWorld : World :=
  ⟨{ sentinelMachine with rflags := 0x00000000F1A6F1A6 }, []⟩

/-- A machine whose IA32_VMX_BASIC MSR holds revision identifier 1, region size 0x1000,
address-width class 0 and memory type 6. -/
def vmxBasicWorld : World :=
  ⟨{ sentinelMachine with msr := fun a => if a = 0x480 then 0x0018100000000001 else 0 }, []⟩

/-- The sub-field values of the literal pattern: revision identifier 1, region size
0x1000, address-width class 0, memory type 6, every other field zero. -/
def literalFields : VmxBasicFields :=
  { VmcsRevisionId := 0x1, MustBeZero := 0, VmcsSizeInBytes := 0x1000, Reserved1 := 0
    VmcsPhysicalAddressWidth := 0, DualMonitorSupport := 0, MemoryType := 6
    InsOutsReporting := 0, VmxControls := 0, Reserved2 := 0 }

/-! ## Bit-level lemmas -/

theorem testBit_bitfieldWrite (Flags pos width value i : Nat) :
    (bitfieldWrite Flags pos width value).testBit i =
      (decide (i < 64) &&
        if pos ≤ i ∧ i < pos + width then value.testBit (i - pos) else Flags.testBit i) := by
  unfold bitfieldWrite
  simp only [Nat.testBit_or, Nat.testBit_and, Nat.testBit_xor, Nat.testBit_shiftLeft,
    Nat.testBit_two_pow_sub_one, Nat.testBit_mod_two_pow]
  by_cases h1 : pos ≤ i
  · by_cases h2 : i < pos + width
    · have h3 : i - pos < width := by omega
      by_cases h4 : i < 64 <;> simp [h1, h2, h3, h4]
    · have h3 : ¬ i - pos < width := by omega
      by_cases h4 : i < 64 <;> simp [h1, h2, h3, h4]
  · by_cases h4 : i < 64 <;> simp [h1, h4]

theorem testBit_bitfieldRead (Flags pos width j : Nat) :
    (bitfieldRead Flags pos width).testBit j = (decide (j < width) && Flags.testBit (pos + j)) := by
  unfold bitfieldRead
  simp [Nat.testBit_mod_two_pow, Nat.testBit_shiftRight]

theorem testBit_of_lt_two_pow {x n i : Nat} (hx : x < 2 ^ n) (hi : n ≤ i) :
    x.testBit i = false :=
  Nat.testBit_lt_two_pow (Nat.lt_of_lt_of_le hx (Nat.pow_le_pow_right (by decide) hi))

theorem bitfieldWrite_lt (Flags pos width value : Nat) :
    bitfieldWrite Flags pos width value < 2 ^ 64 := by
  apply Nat.lt_pow_two_of_testBit
  intro i hi
  have h : ¬ i < 64 := by omega
  simp [testBit_bitfieldWrite, h]

theorem bitfieldWrite_VmxEnable_one {x : Nat} (hx : x < 2 ^ 64) :
    bitfieldWrite x CR4_VMX_ENABLE_BIT 1 1 = x ||| 2 ^ 13 := by
  apply Nat.eq_of_testBit_eq
  intro i
  rw [testBit_bitfieldWrite, Nat.testBit_or, Nat.testBit_two_pow]
  by_cases h13 : i = 13
  · subst h13
    simp [CR4_VMX_ENABLE_BIT]
  · have h1 : ¬ (13 ≤ i ∧ i < 13 + 1) := by omega
    have h2 : ¬ (13 = i) := by omega
    by_cases h64 : i < 64
    · simp [CR4_VMX_ENABLE_BIT, h1, h2, h64]
    · have h3 : x.testBit i = false := testBit_of_lt_two_pow hx (by omega)
      simp [CR4_VMX_ENABLE_BIT, h1, h2, h64, h3]

theorem testBit_write_read (Flags v pos width i : Nat) :
    (bitfieldWrite Flags pos width (bitfieldRead v pos width)).testBit i =
      (decide (i < 64) && if pos ≤ i ∧ i < pos + width then v.testBit i else Flags.testBit i) := by
  rw [testBit_bitfieldWrite]
  by_cases h : pos ≤ i ∧ i < pos + width
  · have h1 : i - pos < width := by omega
    have h2 : pos + (i - pos) = i := by omega
    simp [h, testBit_bitfieldRead, h1, h2]
  · simp [h]

theorem bitfieldRead_write_same {Flags pos width value : Nat} (hfit : pos + width ≤ 64)
    (hv : value < 2 ^ width) :
    bitfieldRead (bitfieldWrite Flags pos width value) pos width = value := by
  apply Nat.eq_of_testBit_eq
  intro j
  rw [testBit_bitfieldRead, testBit_bitfieldWrite]
  by_cases hj : j < width
  · have h1 : pos + j < 64 := by omega
    have h2 : pos ≤ pos + j ∧ pos + j < pos + width := by omega
    simp [hj, h1, h2]
  · have h3 : value.testBit j = false := testBit_of_lt_two_pow hv (by omega)
    simp [hj, h3]

theorem bitfieldRead_write_other {Flags p1 w1 p2 w2 value : Nat} (hfit : p2 + w2 ≤ 64)
    (hdisj : p2 + w2 ≤ p1 ∨ p1 + w1 ≤ p2) :
    bitfieldRead (bitfieldWrite Flags p1 w1 value) p2 w2 = bitfieldRead Flags p2 w2 := by
  apply Nat.eq_of_testBit_eq
  intro j
  rw [testBit_bitfieldRead, testBit_bitfieldRead, testBit_bitfieldWrite]
  by_cases hj : j < w2
  · have h1 : p2 + j < 64 := by omega
    have h2 : ¬ (p1 ≤ p2 + j ∧ p2 + j < p1 + w1) := by omega
    simp [hj, h1, h2]
  · simp [hj]

theorem sentinelMachine_wellFormed : sentinelMachine.WellFormed where
  cr0 := by decide
  cr3 := by decide
  cr4 := by decide
  gdtrLimit := by decide
  gdtrBase := by decide
  idtrLimit := by decide
  idtrBase := by decide
  tr := by decide
  ldtr := by decide
  dr := fun _ => Nat.mod_lt _ (by decide)
  rflags := by decide
  msr := fun _ => Nat.mod_lt _ (by decide)
  cpuid := fun _ _ _ => Nat.mod_lt _ (by decide)

/-! ## Enabling and disabling VMX -/

theorem ArchEnableVmxe_machine (w : World) :
    (ArchEnableVmxe w).machine =
      { w.machine with
        cr4 := w.machine.cr4Latch w.machine.cr4
          (bitfieldWrite (w.machine.cr4 % 2 ^ 64) CR4_VMX_ENABLE_BIT 1 1 % 2 ^ 64) } :=
  rfl

theorem ArchDisableVmxe_machine (w : World) :
    (ArchDisableVmxe w).machine =
      { w.machine with
        cr4 := w.machine.cr4Latch w.machine.cr4
          (bitfieldWrite (w.machine.cr4 % 2 ^ 64) CR4_VMX_ENABLE_BIT 1 0 % 2 ^ 64) } :=
  rfl

/-- Claim C1: on hardware that retains CR4 writes, after `ArchEnableVmxe` the CR4 value is
the previous value `x` with bit 13 (VmxEnable) set and every other bit unchanged, that
is `x ||| 2 ^ 13`. -/
theorem ArchEnableVmxe_sets_only_VmxEnable (w : World)
    (hret : w.machine.RetainsCr4Writes) (hx : w.machine.cr4 < 2 ^ 64) :
    (ArchEnableVmxe w).machine.cr4 = w.machine.cr4 ||| 2 ^ 13 ∧
    (ArchEnableVmxe w).machine.cr4.testBit 13 = true ∧
    ∀ i, i ≠ 13 → (ArchEnableVmxe w).machine.cr4.testBit i = w.machine.cr4.testBit i := by
  have key : (ArchEnableVmxe w).machine.cr4 = w.machine.cr4 ||| 2 ^ 13 := by
    rw [ArchEnableVmxe_machine]
    show w.machine.cr4Latch _ _ = _
    rw [hret, Nat.mod_eq_of_lt (bitfieldWrite_lt _ _ _ _), Nat.mod_eq_of_lt hx,
      bitfieldWrite_VmxEnable_one hx]
  refine ⟨key, ?_, ?_⟩
  · rw [key, Nat.testBit_or, Nat.testBit_two_pow_self, Bool.or_true]
  · intro i hi
    rw [key, Nat.testBit_or, Nat.testBit_two_pow_of_ne (Ne.symm hi), Bool.or_false]

theorem ArchEnableVmxe_sets_only_VmxEnable_witness :
    sentinelWorld.machine.RetainsCr4Writes ∧ sentinelWorld.machine.cr4 < 2 ^ 64 ∧
    sentinelWorld.machine.cr4 = 0xC4C4C4C4C4C4C4C4 ∧
    (ArchEnableVmxe sentinelWorld).machine.cr4 = 0xC4C4C4C4C4C4E4C4 ∧
    (ArchEnableVmxe sentinelWorld).machine.cr4 = sentinelWorld.machine.cr4 ||| 2 ^ 13 ∧
    (ArchEnableVmxe sentinelWorld).machine.cr4.testBit 13 = true ∧
    ∀ i, i ≠ 13 → (ArchEnableVmxe sentinelWorld).machine.cr4.testBit i =
      sentinelWorld.machine.cr4.testBit i :=
  ⟨fun _ _ => rfl, by decide, rfl, by decide,
    ArchEnableVmxe_sets_only_VmxEnable sentinelWorld (fun _ _ => rfl) (by decide)⟩

/-- Claim C2: on hardware that retains CR4 writes, after `ArchDisableVmxe` the CR4 value is
the previous value `x` with bit 13 (VmxEnable) clear and every other bit unchanged, that
is `x` and-ed with the 64-bit complement of `2 ^ 13`. -/
theorem ArchDisableVmxe_clears_only_VmxEnable (w : World)
    (hret : w.machine.RetainsCr4Writes) (hx : w.machine.cr4 < 2 ^ 64) :
    (ArchDisableVmxe w).machine.cr4 = w.machine.cr4 &&& (2 ^ 64 - 1 - 2 ^ 13) ∧
    (ArchDisableVmxe w).machine.cr4.testBit 13 = false ∧
    ∀ i, i ≠ 13 → (ArchDisableVmxe w).machine.cr4.testBit i = w.machine.cr4.testBit i := by
  have bits : ∀ i, (ArchDisableVmxe w).machine.cr4.testBit i =
      (decide (i ≠ 13) && w.machine.cr4.testBit i) := by
    intro i
    rw [ArchDisableVmxe_machine]
    show (w.machine.cr4Latch _ _).testBit i = _
    rw [hret, Nat.mod_eq_of_lt (bitfieldWrite_lt _ _ _ _), Nat.mod_eq_of_lt hx,
      testBit_bitfieldWrite]
    by_cases h13 : i = 13
    · subst h13
      simp [CR4_VMX_ENABLE_BIT]
    · have h1 : ¬ (13 ≤ i ∧ i < 13 + 1) := by omega
      by_cases h64 : i < 64
      · simp [CR4_VMX_ENABLE_BIT, h1, h13, h64]
      · have h3 : w.machine.cr4.testBit i = false := testBit_of_lt_two_pow hx (by omega)
        simp [CR4_VMX_ENABLE_BIT, h1, h13, h64, h3]
  refine ⟨?_, ?_, ?_⟩
  · apply Nat.eq_of_testBit_eq
    intro i
    have hmask : (2 ^ 64 - 1 - 2 ^ 13 : Nat) = (2 ^ 64 - 1) ^^^ 2 ^ 13 := by decide
    rw [bits, hmask, Nat.testBit_and, Nat.testBit_xor, Nat.testBit_two_pow_sub_one,
      Nat.testBit_two_pow]
    by_cases h13 : i = 13
    · subst h13
      simp
    · have h2 : ¬ (13 = i) := by omega
      by_cases h64 : i < 64
      · simp [h13, h2, h64, Bool.and_comm]
      · have h3 : w.machine.cr4.testBit i = false := testBit_of_lt_two_pow hx (by omega)
        simp [h13, h2, h64, h3]
  · simp [bits]
  · intro i hi
    simp [bits, hi]

theorem ArchDisableVmxe_clears_only_VmxEnable_witness :
    vmxOnWorld.machine.RetainsCr4Writes ∧ vmxOnWorld.machine.cr4 < 2 ^ 64 ∧
    vmxOnWorld.machine.cr4 = 0xC4C4C4C4C4C4E4C4 ∧
    (ArchDisableVmxe vmxOnWorld).machine.cr4 = 0xC4C4C4C4C4C4C4C4 ∧
    (ArchDisableVmxe vmxOnWorld).machine.cr4 =
      vmxOnWorld.machine.cr4 &&& (2 ^ 64 - 1 - 2 ^ 13) ∧
    (ArchDisableVmxe vmxOnWorld).machine.cr4.testBit 13 = false ∧
    ∀ i, i ≠ 13 → (ArchDisableVmxe vmxOnWorld).machine.cr4.testBit i =
      vmxOnWorld.machine.cr4.testBit i :=
  ⟨fun _ _ => rfl, by decide, rfl, by decide,
    ArchDisableVmxe_clears_only_VmxEnable vmxOnWorld (fun _ _ => rfl) (by decide)⟩

/-! ## Capability probe -/

theorem toUINT32_toINT32 (n : Nat) : toUINT32 (toINT32 n) = n % 2 ^ 32 := by
  unfold toUINT32 toINT32
  have h : n % 2 ^ 32 < 2 ^ 32 := Nat.mod_lt _ (by decide)
  split <;> omega

theorem HvUtilBitIsSet_eq_testBit (BitField b : Nat) :
    HvUtilBitIsSet BitField (b : Int) = BitField.testBit b := by
  unfold HvUtilBitIsSet
  simp [Nat.testBit, Nat.and_comm]

theorem ArchGetCPUID_value (f s : Int) (r : Nat) (hr : r < 4) (w : World) :
    (ArchGetCPUID f s (r : Int) w).1 = some (w.machine.cpuid f s r % 2 ^ 32) := by
  unfold ArchGetCPUID __cpuidex
  interval_cases r <;> simp [toUINT32_toINT32]

theorem ArchIsCPUFeaturePresent_value (f s : Int) (r b : Nat) (hr : r < 4) (hb : b < 32)
    (w : World) :
    (ArchIsCPUFeaturePresent f s (r : Int) (b : Int) w).1 =
      some ((w.machine.cpuid f s r).testBit b) := by
  unfold ArchIsCPUFeaturePresent
  simp only [ArchGetCPUID_value f s r hr w, Option.map_some', HvUtilBitIsSet_eq_testBit,
    Nat.testBit_mod_two_pow, hb, decide_True, Bool.true_and]

/-- Claim C3: for every CPUID result, every register selector 0..3 and every bit index
below 32, `ArchIsCPUFeaturePresent` returns true exactly when that bit of the selected
register is set, and two CPUID results that agree on that bit of that register give
the same answer whatever the rest holds. -/
theorem ArchIsCPUFeaturePresent_isolates_bit (f s : Int) (r b : Nat) (hr : r < 4)
    (hb : b < 32) (w w2 : World)
    (hagree : (w2.machine.cpuid f s r).testBit b = (w.machine.cpuid f s r).testBit b) :
    (ArchIsCPUFeaturePresent f s (r : Int) (b : Int) w).1 =
        some ((w.machine.cpuid f s r).testBit b) ∧
    (ArchIsCPUFeaturePresent f s (r : Int) (b : Int) w2).1 =
        (ArchIsCPUFeaturePresent f s (r : Int) (b : Int) w).1 := by
  rw [ArchIsCPUFeaturePresent_value f s r b hr hb w,
    ArchIsCPUFeaturePresent_value f s r b hr hb w2, hagree]
  exact ⟨rfl, rfl⟩

theorem ArchIsCPUFeaturePresent_isolates_bit_witness :
    (1 < 4) ∧ (8 < 32) ∧
    (otherCpuidWorld.machine.cpuid 7 0 1).testBit 8 =
      (sentinelWorld.machine.cpuid 7 0 1).testBit 8 ∧
    otherCpuidWorld.machine.cpuid 7 0 1 ≠ sentinelWorld.machine.cpuid 7 0 1 ∧
    (ArchIsCPUFeaturePresent 7 0 ((1 : Nat) : Int) ((8 : Nat) : Int) sentinelWorld).1 =
        some true ∧
    (ArchIsCPUFeaturePresent 7 0 ((1 : Nat) : Int) ((8 : Nat) : Int) sentinelWorld).1 =
        some ((sentinelWorld.machine.cpuid 7 0 1).testBit 8) ∧
    (ArchIsCPUFeaturePresent 7 0 ((1 : Nat) : Int) ((8 : Nat) : Int) otherCpuidWorld).1 =
        (ArchIsCPUFeaturePresent 7 0 ((1 : Nat) : Int) ((8 : Nat) : Int) sentinelWorld).1 :=
  ⟨by decide, by decide, by decide, by decide, by decide,
    ArchIsCPUFeaturePresent_isolates_bit 7 0 1 8 (by decide) (by decide) sentinelWorld
      otherCpuidWorld (by decide)⟩

/-- Claim C6: `ArchIsVMXAvailable` is `ArchIsCPUFeaturePresent` at the fixed query
(CPUID_VMX_ENABLED_FUNCTION, CPUID_VMX_ENABLED_SUBFUNCTION, ECX, CPUID_VMX_ENABLED_BIT);
it returns the truth value of that bit of ECX, leaves the machine unchanged, and
returns the same value on every call made on the same machine. -/
theorem ArchIsVMXAvailable_fixed_query (w : World) :
    ArchIsVMXAvailable w =
      ArchIsCPUFeaturePresent CPUID_VMX_ENABLED_FUNCTION CPUID_VMX_ENABLED_SUBFUNCTION
        CPUID_REGISTER_ECX CPUID_VMX_ENABLED_BIT w ∧
    (ArchIsVMXAvailable w).1 =
      some ((w.machine.cpuid CPUID_VMX_ENABLED_FUNCTION CPUID_VMX_ENABLED_SUBFUNCTION
        CPUID_REGISTER_ECX.toNat).testBit CPUID_VMX_ENABLED_BIT.toNat) ∧
    (ArchIsVMXAvailable w).2.machine = w.machine ∧
    (ArchIsVMXAvailable (ArchIsVMXAvailable w).2).1 = (ArchIsVMXAvailable w).1 ∧
    ∀ t, (ArchIsVMXAvailable ⟨w.machine, t⟩).1 = (ArchIsVMXAvailable w).1 := by
  have value : ∀ u : World, (ArchIsVMXAvailable u).1 =
      some ((u.machine.cpuid CPUID_VMX_ENABLED_FUNCTION CPUID_VMX_ENABLED_SUBFUNCTION
        CPUID_REGISTER_ECX.toNat).testBit CPUID_VMX_ENABLED_BIT.toNat) := fun u =>
    ArchIsCPUFeaturePresent_value CPUID_VMX_ENABLED_FUNCTION CPUID_VMX_ENABLED_SUBFUNCTION
      2 5 (by decide) (by decide) u
  refine ⟨rfl, value w, rfl, ?_, ?_⟩
  · rw [value, value]
    rfl
  · intro t
    rw [value, value]

/-! ## Processor state capture -/

theorem ArchCaptureSpecialRegisters_record (Registers : IA32_SPECIAL_REGISTERS) (w : World) :
    (ArchCaptureSpecialRegisters Registers w).1 = capturedRecord w.machine := by
  simp only [ArchCaptureSpecialRegisters, __readcr0, __readcr3, __readcr4, _sgdt, __sidt,
    ArchReadTaskRegister, ArchReadLocalDescriptorTableRegister, __readdr, __readeflags,
    __readmsr, World.log, capturedRecord]

theorem ArchCaptureSpecialRegisters_machine (Registers : IA32_SPECIAL_REGISTERS) (w : World) :
    (ArchCaptureSpecialRegisters Registers w).2.machine = w.machine := by
  simp only [ArchCaptureSpecialRegisters, __readcr0, __readcr3, __readcr4, _sgdt, __sidt,
    ArchReadTaskRegister, ArchReadLocalDescriptorTableRegister, __readdr, __readeflags,
    __readmsr, World.log]

theorem ArchCaptureSpecialRegisters_trace (Registers : IA32_SPECIAL_REGISTERS) (w : World) :
    (ArchCaptureSpecialRegisters Registers w).2.trace = w.trace ++ captureAccesses := by
  simp [ArchCaptureSpecialRegisters, __readcr0, __readcr3, __readcr4, _sgdt, __sidt,
    ArchReadTaskRegister, ArchReadLocalDescriptorTableRegister, __readdr, __readeflags,
    __readmsr, World.log, captureAccesses]

/-- Claim C4, as stated, fails: on the well-formed sentinel machine the flags register
holds the full-width value 0xF1A6F1A6F1A6F1A6 and the captured `RflagsRegister.Flags`
is 0xF1A6F1A6, which is not the hardware value. -/
theorem ArchCaptureSpecialRegisters_rflags_not_full_width :
    sentinelWorld.machine.WellFormed ∧
    sentinelWorld.machine.rflags = 0xF1A6F1A6F1A6F1A6 ∧
    (ArchCaptureSpecialRegisters zeroRegisters sentinelWorld).1.RflagsRegister.Flags =
      0xF1A6F1A6 ∧
    (ArchCaptureSpecialRegisters zeroRegisters sentinelWorld).1.RflagsRegister.Flags ≠
      sentinelWorld.machine.rflags := by
  rw [ArchCaptureSpecialRegisters_record]
  exact ⟨sentinelMachine_wellFormed, rfl, by decide, by decide⟩

/-- Claim C4, amended: on every well-formed machine the record filled by
`ArchCaptureSpecialRegisters` has every field equal to its corresponding hardware value,
except that `RflagsRegister.Flags` holds the low 32 bits of the flags register. -/
theorem ArchCaptureSpecialRegisters_fields (Registers : IA32_SPECIAL_REGISTERS) (w : World)
    (hwf : w.machine.WellFormed) :
    (ArchCaptureSpecialRegisters Registers w).1.ControlRegister0.Flags = w.machine.cr0 ∧
    (ArchCaptureSpecialRegisters Registers w).1.ControlRegister3.Flags = w.machine.cr3 ∧
    (ArchCaptureSpecialRegisters Registers w).1.ControlRegister4.Flags = w.machine.cr4 ∧
    (ArchCaptureSpecialRegisters Registers w).1.GlobalDescriptorTableRegister.Limit =
      w.machine.gdtrLimit ∧
    (ArchCaptureSpecialRegisters Registers w).1.GlobalDescriptorTableRegister.BaseAddress =
      w.machine.gdtrBase ∧
    (ArchCaptureSpecialRegisters Registers w).1.InterruptDescriptorTableRegister.Limit =
      w.machine.idtrLimit ∧
    (ArchCaptureSpecialRegisters Registers w).1.InterruptDescriptorTableRegister.BaseAddress =
      w.machine.idtrBase ∧
    (ArchCaptureSpecialRegisters Registers w).1.TaskRegister.Flags = w.machine.tr ∧
    (ArchCaptureSpecialRegisters Registers w).1.LocalDescriptorTableRegister.Flags =
      w.machine.ldtr ∧
    (ArchCaptureSpecialRegisters Registers w).1.DebugRegister7.Flags = w.machine.dr 7 ∧
    (ArchCaptureSpecialRegisters Registers w).1.RflagsRegister.Flags =
      w.machine.rflags % 2 ^ 32 ∧
    (ArchCaptureSpecialRegisters Registers w).1.DebugControlMsr.Flags =
      w.machine.msr IA32_DEBUGCTL ∧
    (ArchCaptureSpecialRegisters Registers w).1.SysenterCsMsr.Flags =
      w.machine.msr IA32_SYSENTER_CS ∧
    (ArchCaptureSpecialRegisters Registers w).1.SysenterEspMsr =
      w.machine.msr IA32_SYSENTER_ESP ∧
    (ArchCaptureSpecialRegisters Registers w).1.SysenterEipMsr =
      w.machine.msr IA32_SYSENTER_EIP ∧
    (ArchCaptureSpecialRegisters Registers w).1.GlobalPerfControlMsr =
      w.machine.msr IA32_PERF_GLOBAL_CTRL ∧
    (ArchCaptureSpecialRegisters Registers w).1.PatMsr.Flags = w.machine.msr IA32_PAT ∧
    (ArchCaptureSpecialRegisters Registers w).1.EferMsr.Flags = w.machine.msr IA32_EFER ∧
    (ArchCaptureSpecialRegisters Registers w).1.SmramBaseMsr = w.machine.msr IA32_SMBASE := by
  rw [ArchCaptureSpecialRegisters_record]
  refine ⟨Nat.mod_eq_of_lt hwf.cr0, Nat.mod_eq_of_lt hwf.cr3, Nat.mod_eq_of_lt hwf.cr4,
    Nat.mod_eq_of_lt hwf.gdtrLimit, Nat.mod_eq_of_lt hwf.gdtrBase,
    Nat.mod_eq_of_lt hwf.idtrLimit, Nat.mod_eq_of_lt hwf.idtrBase,
    Nat.mod_eq_of_lt hwf.tr, Nat.mod_eq_of_lt hwf.ldtr, Nat.mod_eq_of_lt (hwf.dr 7), ?_,
    Nat.mod_eq_of_lt (hwf.msr _), Nat.mod_eq_of_lt (hwf.msr _), Nat.mod_eq_of_lt (hwf.msr _),
    Nat.mod_eq_of_lt (hwf.msr _), Nat.mod_eq_of_lt (hwf.msr _), Nat.mod_eq_of_lt (hwf.msr _),
    Nat.mod_eq_of_lt (hwf.msr _), Nat.mod_eq_of_lt (hwf.msr _)⟩
  show w.machine.rflags % 2 ^ 64 % 2 ^ 32 = w.machine.rflags % 2 ^ 32
  exact Nat.mod_mod_of_dvd _ (by decide)

theorem ArchCaptureSpecialRegisters_fields_witness :
    sentinelWorld.machine.WellFormed ∧
    (ArchCaptureSpecialRegisters zeroRegisters sentinelWorld).1.ControlRegister0.Flags = 0xC0C0C0C0C0C0C0C0 ∧
    (ArchCaptureSpecialRegisters zeroRegisters sentinelWorld).1.ControlRegister3.Flags = 0xC3C3C3C3C3C3C3C3 ∧
    (ArchCaptureSpecialRegisters zeroRegisters sentinelWorld).1.ControlRegister4.Flags = 0xC4C4C4C4C4C4C4C4 ∧
    (ArchCaptureSpecialRegisters zeroRegisters sentinelWorld).1.GlobalDescriptorTableRegister.Limit = 0x6D17 ∧
    (ArchCaptureSpecialRegisters zeroRegisters sentinelWorld).1.GlobalDescriptorTableRegister.BaseAddress = 0x6DBA6DBA6DBA6DBA ∧
    (ArchCaptureSpecialRegisters zeroRegisters sentinelWorld).1.InterruptDescriptorTableRegister.Limit = 0x1D17 ∧
    (ArchCaptureSpecialRegisters zeroRegisters sentinelWorld).1.InterruptDescriptorTableRegister.BaseAddress = 0x1DBA1DBA1DBA1DBA ∧
    (ArchCaptureSpecialRegisters zeroRegisters sentinelWorld).1.TaskRegister.Flags = 0x7A5C ∧
    (ArchCaptureSpecialRegisters zeroRegisters sentinelWorld).1.LocalDescriptorTableRegister.Flags = 0x1D7A ∧
    (ArchCaptureSpecialRegisters zeroRegisters sentinelWorld).1.DebugRegister7.Flags = 0xD000000000000007 ∧
    (ArchCaptureSpecialRegisters zeroRegisters sentinelWorld).1.RflagsRegister.Flags = 0xF1A6F1A6F1A6F1A6 % 2 ^ 32 ∧
    (ArchCaptureSpecialRegisters zeroRegisters sentinelWorld).1.DebugControlMsr.Flags = 0xA0000000000001D9 ∧
    (ArchCaptureSpecialRegisters zeroRegisters sentinelWorld).1.SysenterCsMsr.Flags = 0xA000000000000174 ∧
    (ArchCaptureSpecialRegisters zeroRegisters sentinelWorld).1.SysenterEspMsr = 0xA000000000000175 ∧
    (ArchCaptureSpecialRegisters zeroRegisters sentinelWorld).1.SysenterEipMsr = 0xA000000000000176 ∧
    (ArchCaptureSpecialRegisters zeroRegisters sentinelWorld).1.GlobalPerfControlMsr = 0xA00000000000038F ∧
    (ArchCaptureSpecialRegisters zeroRegisters sentinelWorld).1.PatMsr.Flags = 0xA000000000000277 ∧
    (ArchCaptureSpecialRegisters zeroRegisters sentinelWorld).1.EferMsr.Flags = 0xA0000000C0000080 ∧
    (ArchCaptureSpecialRegisters zeroRegisters sentinelWorld).1.SmramBaseMsr = 0xA00000000000009E :=
  ⟨sentinelMachine_wellFormed,
    ArchCaptureSpecialRegisters_fields zeroRegisters sentinelWorld sentinelMachine_wellFormed⟩

/-- Claim C7: `ArchCaptureSpecialRegisters` leaves the machine unchanged, so a second
capture made right after a first one fills a record equal to the first in every field,
whatever the two records held before. -/
theorem ArchCaptureSpecialRegisters_repeatable (R1 R2 : IA32_SPECIAL_REGISTERS) (w : World) :
    (ArchCaptureSpecialRegisters R1 w).2.machine = w.machine ∧
    (ArchCaptureSpecialRegisters R2 (ArchCaptureSpecialRegisters R1 w).2).1 =
      (ArchCaptureSpecialRegisters R1 w).1 := by
  refine ⟨ArchCaptureSpecialRegisters_machine R1 w, ?_⟩
  rw [ArchCaptureSpecialRegisters_record, ArchCaptureSpecialRegisters_record,
    ArchCaptureSpecialRegisters_machine]

/-- Claim C8, as stated, fails: on the sentinel machine the accesses that follow the read
of the flags register are eight MSR reads, so the trace is not the nine register reads
followed by exactly seven MSR reads. -/
theorem ArchCaptureSpecialRegisters_not_seven_msr_reads :
    (((ArchCaptureSpecialRegisters zeroRegisters sentinelWorld).2.trace.drop 9).all
      HwAccess.isMsrRead = true) ∧
    ((ArchCaptureSpecialRegisters zeroRegisters sentinelWorld).2.trace.drop 9).length = 8 ∧
    ¬ ∃ addresses : List Nat, addresses.length = 7 ∧
      (ArchCaptureSpecialRegisters zeroRegisters sentinelWorld).2.trace =
        [.readcr0, .readcr3, .readcr4, .sgdt, .sidt, .str, .sldt, .readdr 7, .readeflags] ++
          addresses.map HwAccess.readmsr := by
  rw [ArchCaptureSpecialRegisters_trace]
  refine ⟨by decide, by decide, ?_⟩
  rintro ⟨addresses, hlen, htrace⟩
  have h := congrArg List.length htrace
  simp [sentinelWorld, captureAccesses, hlen] at h

/-- Claim C8, amended: on every machine state the hardware accesses issued by
`ArchCaptureSpecialRegisters` are exactly, in order, the reads of CR0, CR3, CR4, the GDT
register, the IDT register, the task register, the LDT selector, DR7 and the flags
register, followed by exactly eight MSR reads (IA32_DEBUGCTL, IA32_SYSENTER_CS,
IA32_SYSENTER_ESP, IA32_SYSENTER_EIP, IA32_PERF_GLOBAL_CTRL, IA32_PAT, IA32_EFER,
IA32_SMBASE); there is no other access, and every field of the record is written: the
record after the call does not depend on what it held before. -/
theorem ArchCaptureSpecialRegisters_access_order (Registers Other : IA32_SPECIAL_REGISTERS)
    (w : World) :
    (ArchCaptureSpecialRegisters Registers w).2.trace =
      w.trace ++
        [.readcr0, .readcr3, .readcr4, .sgdt, .sidt, .str, .sldt, .readdr 7, .readeflags,
         .readmsr IA32_DEBUGCTL, .readmsr IA32_SYSENTER_CS, .readmsr IA32_SYSENTER_ESP,
         .readmsr IA32_SYSENTER_EIP, .readmsr IA32_PERF_GLOBAL_CTRL, .readmsr IA32_PAT,
         .readmsr IA32_EFER, .readmsr IA32_SMBASE] ∧
    (ArchCaptureSpecialRegisters Registers w).1 = (ArchCaptureSpecialRegisters Other w).1 := by
  refine ⟨ArchCaptureSpecialRegisters_trace Registers w, ?_⟩
  rw [ArchCaptureSpecialRegisters_record, ArchCaptureSpecialRegisters_record]

/-- Claim C10: the `RflagsRegister.Flags` field written by `ArchCaptureSpecialRegisters` is
the flags register modulo `2 ^ 32`, so two machines whose flags registers agree on
their low 32 bits produce the same captured flags field. -/
theorem ArchCaptureSpecialRegisters_rflags_low32 (R1 R2 : IA32_SPECIAL_REGISTERS)
    (w1 w2 : World) (hlow : w1.machine.rflags % 2 ^ 32 = w2.machine.rflags % 2 ^ 32) :
    (ArchCaptureSpecialRegisters R1 w1).1.RflagsRegister.Flags = w1.machine.rflags % 2 ^ 32 ∧
    (ArchCaptureSpecialRegisters R1 w1).1.RflagsRegister.Flags =
      (ArchCaptureSpecialRegisters R2 w2).1.RflagsRegister.Flags := by
  have low : ∀ (R : IA32_SPECIAL_REGISTERS) (w : World),
      (ArchCaptureSpecialRegisters R w).1.RflagsRegister.Flags = w.machine.rflags % 2 ^ 32 := by
    intro R w
    rw [ArchCaptureSpecialRegisters_record]
    show w.machine.rflags % 2 ^ 64 % 2 ^ 32 = w.machine.rflags % 2 ^ 32
    exact Nat.mod_mod_of_dvd _ (by decide)
  exact ⟨low R1 w1, by rw [low, low, hlow]⟩

theorem ArchCaptureSpecialRegisters_rflags_low32_witness :
    sentinelWorld.machine.rflags % 2 ^ 32 = lowFlagsWorld.machine.rflags % 2 ^ 32 ∧
    sentinelWorld.machine.rflags ≠ lowFlagsWorld.machine.rflags ∧
    (ArchCaptureSpecialRegisters zeroRegisters sentinelWorld).1.RflagsRegister.Flags =
      sentinelWorld.machine.rflags % 2 ^ 32 ∧
    (ArchCaptureSpecialRegisters zeroRegisters sentinelWorld).1.RflagsRegister.Flags =
      (ArchCaptureSpecialRegisters zeroRegisters lowFlagsWorld).1.RflagsRegister.Flags :=
  ⟨by decide, by decide,
    ArchCaptureSpecialRegisters_rflags_low32 zeroRegisters zeroRegisters sentinelWorld
      lowFlagsWorld (by decide)⟩

/-! ## Basic VMX capabilities -/

theorem encode_decode_flags {v : Nat} (hv : v < 2 ^ 64) :
    (IA32_VMX_BASIC_REGISTER.encode (IA32_VMX_BASIC_REGISTER.decode ⟨v⟩)).Flags = v := by
  apply Nat.eq_of_testBit_eq
  intro i
  simp only [IA32_VMX_BASIC_REGISTER.encode, IA32_VMX_BASIC_REGISTER.decode,
    testBit_write_read, Nat.zero_testBit]
  by_cases h64 : i < 64
  · have hd : decide (i < 64) = true := decide_eq_true h64
    simp only [hd, Bool.true_and]
    have hrange : i < 31 ∨ i = 31 ∨ (32 ≤ i ∧ i < 45) ∨ (45 ≤ i ∧ i < 48) ∨ i = 48 ∨ i = 49 ∨
        (50 ≤ i ∧ i < 54) ∨ i = 54 ∨ i = 55 ∨ 56 ≤ i := by omega
    rcases hrange with h | h | h | h | h | h | h | h | h | h <;>
      repeat (first | rw [if_pos (by omega)] | rw [if_neg (by omega)])
  · have h3 : v.testBit i = false := testBit_of_lt_two_pow hv (by omega)
    simp [h64, h3]

theorem decode_encode {f : VmxBasicFields} (hf : f.InRange) :
    (IA32_VMX_BASIC_REGISTER.encode f).decode = f := by
  obtain ⟨h0, h1, h2, h3, h4, h5, h6, h7, h8, h9⟩ := hf
  cases f
  simp only [IA32_VMX_BASIC_REGISTER.encode, IA32_VMX_BASIC_REGISTER.decode,
    VmxBasicFields.mk.injEq]
  simp only at h0 h1 h2 h3 h4 h5 h6 h7 h8 h9
  refine ⟨?_, ?_, ?_, ?_, ?_, ?_, ?_, ?_, ?_, ?_⟩ <;>
    (repeat (first
      | rw [bitfieldRead_write_same (by decide) (by assumption)]
      | rw [bitfieldRead_write_other (by decide) (by decide)]))

/-- Claim C5: `ArchGetBasicVmxCapabilities` returns a descriptor whose `Flags` is the value
of the IA32_VMX_BASIC MSR; for every 64-bit pattern `v`, reading the named sub-fields
and re-encoding them reproduces `v`, and for all in-range sub-field values encoding and
decoding reproduces them; the pattern built from revision identifier 0x1, region size
0x1000, address-width class 0 and memory type 6 decodes to exactly those values. -/
theorem ArchGetBasicVmxCapabilities_roundtrip (w : World) (v : Nat) (f : VmxBasicFields)
    (hmsr : w.machine.msr IA32_VMX_BASIC < 2 ^ 64) (hv : v < 2 ^ 64) (hf : f.InRange) :
    (ArchGetBasicVmxCapabilities w).1.Flags = w.machine.msr IA32_VMX_BASIC ∧
    IA32_VMX_BASIC_REGISTER.encode (IA32_VMX_BASIC_REGISTER.decode ⟨v⟩) = ⟨v⟩ ∧
    (IA32_VMX_BASIC_REGISTER.decode ⟨v⟩).InRange ∧
    (IA32_VMX_BASIC_REGISTER.encode f).decode = f ∧
    (IA32_VMX_BASIC_REGISTER.encode f).Flags < 2 ^ 64 ∧
    IA32_VMX_BASIC_REGISTER.encode literalFields = ⟨0x0018100000000001⟩ ∧
    IA32_VMX_BASIC_REGISTER.decode ⟨0x0018100000000001⟩ = literalFields := by
  refine ⟨Nat.mod_eq_of_lt hmsr, ?_, ?_, decode_encode hf, ?_, by decide, by decide⟩
  · exact congrArg RegisterUnion.mk (encode_decode_flags hv)
  · refine ⟨?_, ?_, ?_, ?_, ?_, ?_, ?_, ?_, ?_, ?_⟩ <;>
      exact Nat.mod_lt _ (Nat.pos_pow_of_pos _ (by decide))
  · exact bitfieldWrite_lt _ _ _ _

theorem ArchGetBasicVmxCapabilities_roundtrip_witness :
    vmxBasicWorld.machine.msr IA32_VMX_BASIC < 2 ^ 64 ∧
    (0x00DA040000000012 : Nat) < 2 ^ 64 ∧
    literalFields.InRange ∧
    (ArchGetBasicVmxCapabilities vmxBasicWorld).1 = ⟨0x0018100000000001⟩ ∧
    (ArchGetBasicVmxCapabilities vmxBasicWorld).1.decode = literalFields ∧
    ((ArchGetBasicVmxCapabilities vmxBasicWorld).1.Flags =
        vmxBasicWorld.machine.msr IA32_VMX_BASIC ∧
      IA32_VMX_BASIC_REGISTER.encode (IA32_VMX_BASIC_REGISTER.decode ⟨0x00DA040000000012⟩) =
        ⟨0x00DA040000000012⟩ ∧
      (IA32_VMX_BASIC_REGISTER.decode ⟨0x00DA040000000012⟩).InRange ∧
      (IA32_VMX_BASIC_REGISTER.encode literalFields).decode = literalFields ∧
      (IA32_VMX_BASIC_REGISTER.encode literalFields).Flags < 2 ^ 64 ∧
      IA32_VMX_BASIC_REGISTER.encode literalFields = ⟨0x0018100000000001⟩ ∧
      IA32_VMX_BASIC_REGISTER.decode ⟨0x0018100000000001⟩ = literalFields) :=
  ⟨by decide, by decide, by decide, by decide, by decide,
    ArchGetBasicVmxCapabilities_roundtrip vmxBasicWorld 0x00DA040000000012 literalFields
      (by decide) (by decide) (by decide)⟩

/-! ## The read-back in `ArchEnableVmxe` -/

/-- Claim C9, as stated, fails: on hardware that ignores the write to CR4 the value read
back has bit 13 clear, yet `ArchEnableVmxe` issues exactly the accesses it issues on
hardware that retains the write (it returns `VOID` in both cases); what differs is only
the CR4 value the hardware itself holds. -/
theorem ArchEnableVmxe_read_back_unchecked :
    ¬ droppingWorld.machine.RetainsCr4Writes ∧
    retainingWorld.machine.RetainsCr4Writes ∧
    droppingWorld.machine.cr4 = retainingWorld.machine.cr4 ∧
    (__readcr4 (ArchEnableVmxe droppingWorld)).1.testBit 13 = false ∧
    (__readcr4 (ArchEnableVmxe retainingWorld)).1.testBit 13 = true ∧
    (ArchEnableVmxe droppingWorld).trace = [.readcr4, .writecr4 0x2000, .readcr4] ∧
    (ArchEnableVmxe droppingWorld).trace = (ArchEnableVmxe retainingWorld).trace := by
  refine ⟨?_, fun _ _ => rfl, rfl, by decide, by decide, by decide, by decide⟩
  intro h
  exact absurd (h 0 1) (by decide)

/-- Claim C9, amended: `ArchEnableVmxe` re-reads CR4 after writing it and makes no use of
the value read back: on every machine, whether or not the hardware retains the write,
it issues exactly the accesses read CR4, write CR4 with the old value or-ed with
`2 ^ 13`, read CR4, and leaves the machine as the write left it. -/
theorem ArchEnableVmxe_accesses (w : World) :
    (ArchEnableVmxe w).trace =
      w.trace ++
        [.readcr4, .writecr4 (w.machine.cr4 % 2 ^ 64 ||| 2 ^ 13), .readcr4] ∧
    (ArchEnableVmxe w).machine =
      (__writecr4 (w.machine.cr4 % 2 ^ 64 ||| 2 ^ 13) w).machine := by
  have hlt : w.machine.cr4 % 2 ^ 64 < 2 ^ 64 := Nat.mod_lt _ (by decide)
  have hset := bitfieldWrite_VmxEnable_one hlt
  constructor
  · show w.trace ++ [HwAccess.readcr4] ++
        [HwAccess.writecr4
          (bitfieldWrite (w.machine.cr4 % 2 ^ 64) CR4_VMX_ENABLE_BIT 1 1 % 2 ^ 64)] ++
        [HwAccess.readcr4] = _
    rw [Nat.mod_eq_of_lt (bitfieldWrite_lt _ _ _ _), hset, List.append_assoc,
      List.append_assoc]
    rfl
  · rw [ArchEnableVmxe_machine, hset]
    rfl

end Gbhv
